import Mathlib

/-!
Shallow embedding of the cryptic-hunt server (`src/server.js`): the
progression state machine (registration, level retrieval, answer
submission) and the leaderboard ranking query, modelled over an explicit
store state.  SQLite rows become Lean structures; each Express handler
becomes a function from the store (plus the authenticated user id and the
request inputs) to a response, returning the updated store where the
handler writes.  JavaScript values that may be absent or non-strings are
modelled by an explicit sum type; `Number(...)` results by `JsNum`.
Timestamps (`Date.now()`) are passed in as parameters.  String case
folding is modelled at ASCII granularity (the configured answers and the
claims' examples are ASCII).
-/

deriving instance DecidableEq for Except

namespace CrypticHunt

/-- A JavaScript value as it may arrive in a JSON request body field. -/
inductive JsVal where
  | undef
  | jsnull
  | str (s : String)
  | num (n : Int)
  | bool (b : Bool)
deriving DecidableEq, Repr

/-- JavaScript truthiness test (`!v` / `v || d`). -/
def JsVal.falsy : JsVal → Bool
  | .undef => true
  | .jsnull => true
  | .str s => s.isEmpty
  | .num n => n == 0
  | .bool b => !b

/-- JavaScript `.toString()` on the modelled values. -/
def JsVal.toString : JsVal → String
  | .undef => "undefined"
  | .jsnull => "null"
  | .str s => s
  | .num n => ToString.toString n
  | .bool b => if b then "true" else "false"

/-- Result of JavaScript `Number(x)`: NaN, an integer, or some other
(non-integer) number; `Number.isInteger` is true exactly on `int`. -/
inductive JsNum where
  | nan
  | int (i : Int)
  | frac
deriving DecidableEq, Repr

/-- JavaScript `String.prototype.trim`: whitespace removed from both
ends (modelled at the granularity of `Char.isWhitespace`). -/
def jsTrim (s : String) : String :=
  ⟨((s.data.dropWhile Char.isWhitespace).reverse.dropWhile
      Char.isWhitespace).reverse⟩

/-- JavaScript `String.prototype.toLowerCase`, at ASCII granularity (the
configured answers and the claims' examples are ASCII). -/
def jsToLower (s : String) : String :=
  ⟨s.data.map Char.toLower⟩

/-- `const norm = s => (s || '').toString().trim().toLowerCase();`
(server.js line 78).  `s || ''` yields `''` on falsy input. -/
def norm (s : JsVal) : String :=
  jsToLower (jsTrim (if s.falsy then "" else s.toString))

/-- One entry of the static `LEVELS` configuration array. -/
structure LevelDef where
  id : Nat
  prompt : String
  answer : String
deriving DecidableEq, Repr

/-- The `LEVELS` array (server.js lines 65-76), copied verbatim. -/
def LEVELS : List LevelDef :=
  [ ⟨1, "I speak without a mouth and hear without ears. What am I?", "echo"⟩,
    ⟨2, "Find the hidden word in: C R Y P T I C — remove edges, read center.", "rypti"⟩,
    ⟨3, "An anagram of “LISTEN” that is a verb.", "silent"⟩,
    ⟨4, "Binary 01101000 01110101 01101110 01110100", "hunt"⟩,
    ⟨5, "Clock puzzle: 3:15 angle smaller one?", "7.5"⟩,
    ⟨6, "Vigenere key=RING. Cipher: VYYMZ QN. Plain?", "solve me"⟩,
    ⟨7, "Acrostic of: Hidden Under Nightfall Trail", "hunt"⟩,
    ⟨8, "MD5 of answer is 5d41402abc4b2a76b9719d911017c592", "hello"⟩,
    ⟨9, "Roman: XIV + VI = ?", "20"⟩,
    ⟨10, "Final: keyword from levels 1,4,7 combined.", "echohunthunt"⟩ ]

/-- A row of the `users` table. -/
structure UserRow where
  id : String
  username : String
  password_hash : String
  created_at : Nat
deriving DecidableEq, Repr

/-- A row of the `progress` table (`is_solved` is the stored INTEGER,
`solved_at` the nullable INTEGER column). -/
structure ProgRow where
  user_id : String
  level : Nat
  is_solved : Nat
  solved_at : Option Nat
deriving DecidableEq, Repr

/-- The persistent store: the two SQLite tables. -/
structure Store where
  users : List UserRow
  progress : List ProgRow
deriving DecidableEq, Repr

/-- The business-rule error kinds, named by the error strings the
handlers send (`bad_level` = the spec's InvalidLevel, `locked` =
LevelLocked, `username_taken` = UsernameTaken). -/
inductive ApiError where
  | missing
  | username_length
  | password_length
  | username_taken
  | server_error
  | bad_level
  | locked
deriving DecidableEq, Repr

/-- `SELECT ... FROM progress WHERE user_id = ? ORDER BY level ASC`. -/
def getProgress (s : Store) (uid : String) : List ProgRow :=
  (s.progress.filter (fun p => p.user_id == uid)).insertionSort
    (fun a b => a.level ≤ b.level)

/-- `Math.max(0, ...prog.filter(p => p.is_solved).map(p => p.level))`
(server.js lines 131, 140, 156): the user's highest solved level, 0 when
none. -/
def highestSolved (prog : List ProgRow) : Nat :=
  ((prog.filter (fun p => p.is_solved != 0)).map (fun p => p.level)).foldl
    Nat.max 0

/-- Successful response body of `GET /api/level/:level`. -/
structure LevelResponse where
  level : Nat
  prompt : String
  is_solved : Bool
deriving DecidableEq, Repr

/-- The `GET /api/level/:level` handler (server.js lines 135-145), after
authentication: `levelParam` is `Number(req.params.level)`. -/
def getLevel (s : Store) (uid : String) (levelParam : JsNum) :
    Except ApiError LevelResponse :=
  match levelParam with
  | .int n =>
    if n < 1 ∨ n > (LEVELS.length : Int) then .error .bad_level
    else
      let prog := getProgress s uid
      let highest := highestSolved prog
      if (highest : Int) + 1 < n then .error .locked
      else
        let prompt := (LEVELS.getD (n.toNat - 1) ⟨0, "", ""⟩).prompt
        let solved :=
          (prog.find? (fun p => (p.level : Int) == n)).any
            (fun p => p.is_solved == 1)
        .ok { level := n.toNat, prompt := prompt, is_solved := solved }
  | _ => .error .bad_level

/-- Response body of `POST /api/answer`. -/
structure AnswerResponse where
  correct : Bool
deriving DecidableEq, Repr

/-- The `POST /api/answer` handler (server.js lines 147-167), after
authentication: `levelParam` is `Number(req.body.level)`, `answer` the raw
body field, `now` the value `Date.now()` would produce at the UPDATE.
Returns the store after the handler ran together with the response; the
error paths run no writes, so they pair with the unchanged store. -/
def submitAnswer (s : Store) (uid : String) (levelParam : JsNum)
    (answer : JsVal) (now : Nat) : Store × Except ApiError AnswerResponse :=
  match levelParam with
  | .int n =>
    if n < 1 ∨ n > (LEVELS.length : Int) then (s, .error .bad_level)
    else
      let expected := (LEVELS.getD (n.toNat - 1) ⟨0, "", ""⟩).answer
      let correct := norm answer == norm (.str expected)
      let prog := getProgress s uid
      let highest := highestSolved prog
      if (highest : Int) + 1 < n then (s, .error .locked)
      else
        let s2 :=
          if correct then
            let already :=
              s.progress.find? (fun p => p.user_id == uid && (p.level : Int) == n)
            if already.all (fun p => p.is_solved == 0) then
              { s with progress :=
                  s.progress.map (fun p =>
                    if p.user_id == uid && (p.level : Int) == n then
                      { p with is_solved := 1, solved_at := some now }
                    else p) }
            else s
          else s
        (s2, .ok { correct := correct })
  | _ => (s, .error .bad_level)

/-- Successful response body of `POST /api/register`. -/
structure RegisterResponse where
  id : String
  username : String
deriving DecidableEq, Repr

/-- The `POST /api/register` handler (server.js lines 87-111): `id` models
the `nanoid()` result, `hash` the bcrypt hash, `now` `Date.now()`.  The
`users` INSERT raises `SQLITE_CONSTRAINT_UNIQUE` on a duplicate username
(mapped to `username_taken`) and `SQLITE_CONSTRAINT_PRIMARYKEY` on a
duplicate id (mapped to the generic 500 `server_error`); either failed
statement leaves the store untouched.  If the user INSERT succeeds but a
seed `progress` INSERT hits its primary key (a pre-existing row
`(id, i)` with `1 ≤ i ≤ N`), the transaction rolls the progress rows
back but the already-committed user row remains. -/
def register (s : Store) (username password id hash : String) (now : Nat) :
    Store × Except ApiError RegisterResponse :=
  if username.isEmpty ∨ password.isEmpty then (s, .error .missing)
  else if username.length < 3 ∨ username.length > 24 then
    (s, .error .username_length)
  else if password.length < 6 then (s, .error .password_length)
  else if s.users.any (fun u => u.username == username) then
    (s, .error .username_taken)
  else if s.users.any (fun u => u.id == id) then (s, .error .server_error)
  else
    let s1 : Store := { s with users := s.users ++ [⟨id, username, hash, now⟩] }
    let seeded : List ProgRow :=
      (List.range LEVELS.length).map (fun i => ⟨id, i + 1, 0, none⟩)
    if s.progress.any (fun p => p.user_id == id && 1 ≤ p.level && p.level ≤ LEVELS.length)
    then (s1, .error .server_error)
    else ({ s1 with progress := s1.progress ++ seeded }, .ok ⟨id, username⟩)

/-- One row of the `GET /api/leaderboard` response: the three columns of
the SELECT list (server.js lines 170-181), all of which `res.json`
serialises to the client. -/
structure BoardRow where
  username : String
  solved_levels : Nat
  tiebreak_ts : Option Nat
deriving DecidableEq, Repr

/-- The progress rows of one user (the `LEFT JOIN ... GROUP BY u.id`
group). -/
def rowsOf (s : Store) (uid : String) : List ProgRow :=
  s.progress.filter (fun p => p.user_id == uid)

/-- `COALESCE(MAX(CASE WHEN p.is_solved = 1 THEN p.level END), 0)` over a
user's rows; also the correlated subquery
`SELECT COALESCE(MAX(level),0) FROM progress WHERE user_id = u.id AND
is_solved = 1`. -/
def sqlHighestSolved (rows : List ProgRow) : Nat :=
  ((rows.filter (fun p => p.is_solved == 1)).map (fun p => p.level)).foldl
    Nat.max 0

/-- `MIN(CASE WHEN p.is_solved = 1 AND p.level = (subquery) THEN
p.solved_at END)`: SQL MIN skips NULLs and yields NULL on an empty set. -/
def tiebreakTs (rows : List ProgRow) : Option Nat :=
  ((rows.filter (fun p => p.is_solved == 1 && p.level == sqlHighestSolved rows)).filterMap
    (fun p => p.solved_at)).min?

/-- The per-user aggregation of the leaderboard query, one row per entry
of `users`. -/
def boardRows (s : Store) : List BoardRow :=
  s.users.map (fun u =>
    ⟨u.username, sqlHighestSolved (rowsOf s u.id), tiebreakTs (rowsOf s u.id)⟩)

/-- Lexicographic byte order on character lists: SQLite's BINARY
collation for `username ASC` (equal to codepoint order on ASCII). -/
def lexLe : List Char → List Char → Bool
  | [], _ => true
  | _ :: _, [] => false
  | a :: as, b :: bs =>
    Nat.blt a.toNat b.toNat || (a.toNat == b.toNat && lexLe as bs)

/-- `a` sorts at or before `b` under SQLite's BINARY collation. -/
def strLe (a b : String) : Prop :=
  lexLe a.data b.data = true

instance : DecidableRel strLe := fun a b => by
  unfold strLe
  infer_instance

/-- `tiebreak_ts ASC NULLS LAST` as a strict comparison: a non-NULL
timestamp sorts before NULL. -/
def tsLt : Option Nat → Option Nat → Prop
  | some x, some y => x < y
  | some _, none => True
  | none, _ => False

instance : DecidableRel tsLt := fun a b => by
  cases a <;> cases b <;> simp [tsLt] <;> infer_instance

/-- The ORDER BY key of the leaderboard query:
`solved_levels DESC, tiebreak_ts ASC NULLS LAST, username ASC`. -/
def boardLe (a b : BoardRow) : Prop :=
  b.solved_levels < a.solved_levels ∨
    (a.solved_levels = b.solved_levels ∧
      (tsLt a.tiebreak_ts b.tiebreak_ts ∨
        (a.tiebreak_ts = b.tiebreak_ts ∧ strLe a.username b.username)))

instance : DecidableRel boardLe := fun a b => by
  unfold boardLe; infer_instance

/-- The `GET /api/leaderboard` handler (server.js lines 169-183): the
grouped rows ordered by `boardLe`, limited to 100. -/
def leaderboard (s : Store) : List BoardRow :=
  ((boardRows s).insertionSort boardLe).take 100

/-- One request against the API, as far as the progress store is
concerned (login/logout/me touch only sessions, never `progress`). -/
inductive Op where
  | getLevelOp (uid : String) (levelParam : JsNum)
  | submitAnswerOp (uid : String) (levelParam : JsNum) (answer : JsVal) (now : Nat)
  | leaderboardOp
  | registerOp (username password id hash : String) (now : Nat)

/-- The store after one request: `GET /api/level` and `GET /api/leaderboard`
run only SELECT statements, so they leave the store as it is. -/
def applyOp (s : Store) : Op → Store
  | .getLevelOp _ _ => s
  | .leaderboardOp => s
  | .submitAnswerOp uid p a now => (submitAnswer s uid p a now).1
  | .registerOp u pw id h now => (register s u pw id h now).1

/-- The store after a sequence of requests. -/
def runOps (s : Store) (ops : List Op) : Store :=
  ops.foldl applyOp s

/-! Example stores used to witness the theorems on concrete inputs. -/

/-- A store with one user who has solved levels 1 and 2 (at times 10 and
11) and holds the full seeded set of ten progress rows. -/
def exS : Store :=
  { users := [⟨"u1", "alice", "h", 0⟩],
    progress := (List.range 10).map (fun i =>
      ⟨"u1", i + 1, if i < 2 then 1 else 0, if i < 2 then some (10 + i) else none⟩) }

/-- The leaderboard scenario of the spec's ordering example: users A
(= "alice", solved 1-3, highest solve at t = 10), B (= "bob", solved 1-3,
highest solve at t = 5), C (= "zara", no solves), D (= "amy", no
solves). -/
def exB : Store :=
  { users := [⟨"a", "alice", "h", 0⟩, ⟨"b", "bob", "h", 0⟩,
              ⟨"c", "zara", "h", 0⟩, ⟨"d", "amy", "h", 0⟩],
    progress :=
      ((List.range 3).map (fun i =>
        (⟨"a", i + 1, 1, some (if i = 2 then 10 else i)⟩ : ProgRow))) ++
      ((List.range 3).map (fun i =>
        (⟨"b", i + 1, 1, some (if i = 2 then 5 else i)⟩ : ProgRow))) }

/-- A one-user store whose single progress row was solved at time 42. -/
def exT : Store :=
  { users := [⟨"u1", "alice", "h", 0⟩], progress := [⟨"u1", 1, 1, some 42⟩] }

/-- The empty store. -/
def s0 : Store := { users := [], progress := [] }

/-! Helper lemmas about `foldl Nat.max` and `getProgress`. -/

theorem le_foldl_max_self (l : List Nat) (a : Nat) : a ≤ l.foldl Nat.max a := by
  induction l generalizing a with
  | nil => exact le_refl a
  | cons x l ih => exact le_trans (Nat.le_max_left a x) (ih (Nat.max a x))

theorem le_foldl_max_of_mem {l : List Nat} {x : Nat} (a : Nat) (hx : x ∈ l) :
    x ≤ l.foldl Nat.max a := by
  induction l generalizing a with
  | nil => cases hx
  | cons y l ih =>
    rcases List.mem_cons.mp hx with h | h
    · subst h
      exact le_trans (Nat.le_max_right a x) (le_foldl_max_self l (Nat.max a x))
    · exact ih (Nat.max a y) h

theorem foldl_max_le {l : List Nat} {a b : Nat} (ha : a ≤ b)
    (hl : ∀ x ∈ l, x ≤ b) : l.foldl Nat.max a ≤ b := by
  induction l generalizing a with
  | nil => exact ha
  | cons y l ih =>
    exact ih (Nat.max_le.mpr ⟨ha, hl y (List.mem_cons_self y l)⟩)
      (fun x hx => hl x (List.mem_cons_of_mem y hx))

theorem mem_getProgress {s : Store} {uid : String} {p : ProgRow} :
    p ∈ getProgress s uid ↔ p ∈ s.progress ∧ p.user_id = uid := by
  unfold getProgress
  rw [List.mem_insertionSort, List.mem_filter]
  simp

theorem highestSolved_ge {prog : List ProgRow} {p : ProgRow}
    (hp : p ∈ prog) (hs : p.is_solved ≠ 0) : p.level ≤ highestSolved prog := by
  unfold highestSolved
  apply le_foldl_max_of_mem
  exact List.mem_map_of_mem _ (List.mem_filter.mpr ⟨hp, by simpa using hs⟩)

theorem highestSolved_le {prog : List ProgRow} {b : Nat}
    (h : ∀ p ∈ prog, p.is_solved ≠ 0 → p.level ≤ b) : highestSolved prog ≤ b := by
  unfold highestSolved
  apply foldl_max_le (Nat.zero_le b)
  intro x hx
  rcases List.mem_map.mp hx with ⟨p, hp, rfl⟩
  rcases List.mem_filter.mp hp with ⟨hpm, hps⟩
  exact h p hpm (by simpa using hps)

theorem LEVELS_length : LEVELS.length = 10 := rfl

/-- The default row fed to `List.getD` when indexing `LEVELS`. -/
def dfltLevel : LevelDef := ⟨0, "", ""⟩

/-- Evaluation of `getLevel` once the ordinal passed validation. -/
theorem getLevel_valid (s : Store) (uid : String) (i : Int)
    (h1 : 1 ≤ i) (h2 : i ≤ (LEVELS.length : Int)) :
    getLevel s uid (.int i) =
      if (highestSolved (getProgress s uid) : Int) + 1 < i then .error .locked
      else
        .ok ⟨i.toNat, (LEVELS.getD (i.toNat - 1) dfltLevel).prompt,
          ((getProgress s uid).find? (fun p => (p.level : Int) == i)).any
            (fun p => p.is_solved == 1)⟩ := by
  have hN : (LEVELS.length : Int) = 10 := by decide
  simp only [getLevel, dfltLevel]
  rw [if_neg (by omega)]

/-- The store written by the UPDATE statement of `POST /api/answer`. -/
def applySolve (s : Store) (uid : String) (i : Int) (now : Nat) : Store :=
  { s with progress :=
      s.progress.map (fun p =>
        if p.user_id == uid && (p.level : Int) == i then
          { p with is_solved := 1, solved_at := some now }
        else p) }

/-- Evaluation of `submitAnswer` once the ordinal passed validation and
the unlock gate. -/
theorem submitAnswer_valid_unlocked (s : Store) (uid : String) (i : Int)
    (a : JsVal) (now : Nat) (h1 : 1 ≤ i) (h2 : i ≤ (LEVELS.length : Int))
    (h3 : i ≤ (highestSolved (getProgress s uid) : Int) + 1) :
    submitAnswer s uid (.int i) a now =
      ((if norm a == norm (.str ((LEVELS.getD (i.toNat - 1) dfltLevel).answer)) then
          if (s.progress.find? (fun p => p.user_id == uid && (p.level : Int) == i)).all
              (fun p => p.is_solved == 0) then
            applySolve s uid i now
          else s
        else s),
       .ok ⟨norm a == norm (.str ((LEVELS.getD (i.toNat - 1) dfltLevel).answer))⟩) := by
  have hN : (LEVELS.length : Int) = 10 := by decide
  simp only [submitAnswer, dfltLevel, applySolve]
  rw [if_neg (by omega), if_neg (by omega)]

/-- Evaluation of `submitAnswer` on a locked valid level. -/
theorem submitAnswer_locked (s : Store) (uid : String) (i : Int)
    (a : JsVal) (now : Nat) (h1 : 1 ≤ i) (h2 : i ≤ (LEVELS.length : Int))
    (h3 : (highestSolved (getProgress s uid) : Int) + 1 < i) :
    submitAnswer s uid (.int i) a now = (s, .error .locked) := by
  have hN : (LEVELS.length : Int) = 10 := by decide
  simp only [submitAnswer]
  rw [if_neg (by omega), if_pos h3]

/-- Evaluation of `getLevel` on an out-of-range ordinal. -/
theorem getLevel_invalid (s : Store) (uid : String) (i : Int)
    (h : i < 1 ∨ i > (LEVELS.length : Int)) :
    getLevel s uid (.int i) = .error .bad_level := by
  simp only [getLevel]
  rw [if_pos h]

/-- Evaluation of `submitAnswer` on an out-of-range ordinal. -/
theorem submitAnswer_invalid (s : Store) (uid : String) (i : Int)
    (a : JsVal) (now : Nat) (h : i < 1 ∨ i > (LEVELS.length : Int)) :
    submitAnswer s uid (.int i) a now = (s, .error .bad_level) := by
  simp only [submitAnswer]
  rw [if_pos h]

/-- C1: for every authenticated user and requested level, `getLevel` and
`submitAnswer` fail with InvalidLevel (`bad_level`) iff the requested
level is not an integer in `[1, N]`; for a valid level they fail with
LevelLocked (`locked`) iff the level exceeds `highestSolved + 1` — in
particular level 1 is never locked — and the lock check runs on every
submission, not only on retrieval. -/
theorem c1_sequential_gate (s : Store) (uid : String) (p : JsNum)
    (a : JsVal) (now : Nat) :
    (getLevel s uid p = .error .bad_level ↔
       ¬ ∃ i : Int, p = .int i ∧ 1 ≤ i ∧ i ≤ (LEVELS.length : Int)) ∧
    ((submitAnswer s uid p a now).2 = .error .bad_level ↔
       ¬ ∃ i : Int, p = .int i ∧ 1 ≤ i ∧ i ≤ (LEVELS.length : Int)) ∧
    (∀ i : Int, p = .int i → 1 ≤ i → i ≤ (LEVELS.length : Int) →
      ((getLevel s uid p = .error .locked ↔
          (highestSolved (getProgress s uid) : Int) + 1 < i) ∧
       ((submitAnswer s uid p a now).2 = .error .locked ↔
          (highestSolved (getProgress s uid) : Int) + 1 < i) ∧
       (i = 1 → getLevel s uid p ≠ .error .locked ∧
          (submitAnswer s uid p a now).2 ≠ .error .locked))) := by
  have hN : (LEVELS.length : Int) = 10 := by decide
  cases p with
  | nan =>
    refine ⟨by simp [getLevel], by simp [submitAnswer], ?_⟩
    intro i hi
    cases hi
  | frac =>
    refine ⟨by simp [getLevel], by simp [submitAnswer], ?_⟩
    intro i hi
    cases hi
  | int n =>
    by_cases hv : n < 1 ∨ n > (LEVELS.length : Int)
    · refine ⟨?_, ?_, ?_⟩
      · rw [getLevel_invalid s uid n hv]
        refine iff_of_true rfl ?_
        rintro ⟨i, hi, hl, hr⟩
        cases hi
        rw [hN] at hv
        omega
      · rw [submitAnswer_invalid s uid n a now hv]
        refine iff_of_true rfl ?_
        rintro ⟨i, hi, hl, hr⟩
        cases hi
        rw [hN] at hv
        omega
      · intro i hi h1 h2
        cases hi
        rw [hN] at hv h2
        omega
    · push_neg at hv
      obtain ⟨hv1, hv2⟩ := hv
      refine ⟨?_, ?_, ?_⟩
      · rw [getLevel_valid s uid n (by omega) (by omega)]
        refine iff_of_false ?_ (not_not_intro ⟨n, rfl, by omega, by omega⟩)
        split_ifs <;> simp
      · refine iff_of_false ?_ (not_not_intro ⟨n, rfl, by omega, by omega⟩)
        by_cases hl : (highestSolved (getProgress s uid) : Int) + 1 < n
        · rw [submitAnswer_locked s uid n a now (by omega) (by omega) hl]
          simp
        · rw [submitAnswer_valid_unlocked s uid n a now (by omega) (by omega) (by omega)]
          simp
      · intro i hi h1 h2
        cases hi
        by_cases hl : (highestSolved (getProgress s uid) : Int) + 1 < n
        · refine ⟨?_, ?_, ?_⟩
          · rw [getLevel_valid s uid n (by omega) (by omega), if_pos hl]
            exact iff_of_true rfl hl
          · rw [submitAnswer_locked s uid n a now (by omega) (by omega) hl]
            simpa using hl
          · intro h1eq
            subst h1eq
            omega
        · refine ⟨?_, ?_, ?_⟩
          · rw [getLevel_valid s uid n (by omega) (by omega), if_neg hl]
            simp [hl]
          · rw [submitAnswer_valid_unlocked s uid n a now (by omega) (by omega) (by omega)]
            simp [hl]
          · intro _
            constructor
            · rw [getLevel_valid s uid n (by omega) (by omega), if_neg hl]
              simp
            · rw [submitAnswer_valid_unlocked s uid n a now (by omega) (by omega) (by omega)]
              simp

/-- Witness for C1 at concrete inputs: in `exS` (highest solved = 2)
level 4 is locked on both operations, level 11 is rejected as invalid,
and level 1 is not locked. -/
theorem c1_sequential_gate_witness :
    getLevel exS "u1" (.int 4) = .error .locked ∧
    getLevel exS "u1" (.int 11) = .error .bad_level ∧
    getLevel exS "u1" (.int 1) ≠ .error .locked := by
  have h := c1_sequential_gate exS "u1" (.int 4) (.str "x") 0
  have h11 := c1_sequential_gate exS "u1" (.int 11) (.str "x") 0
  have h1 := c1_sequential_gate exS "u1" (.int 1) (.str "x") 0
  refine ⟨?_, ?_, ?_⟩
  · exact ((h.2.2 4 rfl (by decide) (by decide)).1).mpr (by decide)
  · refine h11.1.mpr ?_
    rintro ⟨i, hi, hl, hr⟩
    cases hi
    revert hl hr
    decide
  · exact ((h1.2.2 1 rfl (by decide) (by decide)).2.2 rfl).1

/-- On a string value, `norm` is exactly trim-then-lowercase. -/
theorem norm_str (str : String) : norm (.str str) = jsToLower (jsTrim str) := by
  unfold norm JsVal.falsy JsVal.toString
  by_cases h : str.isEmpty
  · rw [(String.isEmpty_iff str).mp h]
    rfl
  · simp [h]

/-- C7: answer matching is decided solely by equality of canonical forms
(trim surrounding whitespace, lowercase) of the submitted and the
expected answer: on a valid unlocked level the verdict is literally that
equality, canonicalisation is trim-then-lowercase, and the spec's example
(expected `"echo"`, submitted `" Echo "`) is accepted. -/
theorem c7_normalization :
    (∀ str : String, norm (.str str) = jsToLower (jsTrim str)) ∧
    (∀ (s : Store) (uid : String) (i : Int) (a : JsVal) (now : Nat),
       1 ≤ i → i ≤ (LEVELS.length : Int) →
       i ≤ (highestSolved (getProgress s uid) : Int) + 1 →
       (submitAnswer s uid (.int i) a now).2 =
         .ok ⟨norm a == norm (.str ((LEVELS.getD (i.toNat - 1) dfltLevel).answer))⟩) ∧
    (∀ (s : Store) (uid : String) (i : Int) (a b : JsVal) (now : Nat),
       norm a = norm b →
       (submitAnswer s uid (.int i) a now).2 = (submitAnswer s uid (.int i) b now).2) ∧
    (submitAnswer exS "u1" (.int 1) (.str " Echo ") 99).2 = .ok ⟨true⟩ := by
  refine ⟨norm_str, ?_, ?_, by decide⟩
  · intro s uid i a now h1 h2 h3
    rw [submitAnswer_valid_unlocked s uid i a now h1 h2 h3]
  · intro s uid i a b now hab
    have hN : (LEVELS.length : Int) = 10 := by decide
    by_cases hv : i < 1 ∨ i > (LEVELS.length : Int)
    · rw [submitAnswer_invalid s uid i a now hv, submitAnswer_invalid s uid i b now hv]
    · push_neg at hv
      by_cases hl : (highestSolved (getProgress s uid) : Int) + 1 < i
      · rw [submitAnswer_locked s uid i a now (by omega) (by omega) hl,
            submitAnswer_locked s uid i b now (by omega) (by omega) hl]
      · rw [submitAnswer_valid_unlocked s uid i a now (by omega) (by omega) (by omega),
            submitAnswer_valid_unlocked s uid i b now (by omega) (by omega) (by omega),
            hab]

/-- Witness for C7: two submissions differing only in case and
surrounding whitespace get the same verdict on level 3 of `exS`, and the
spec's level-1 example is accepted. -/
theorem c7_normalization_witness :
    (submitAnswer exS "u1" (.int 3) (.str " Silent ") 99).2 =
      (submitAnswer exS "u1" (.int 3) (.str "silent") 99).2 ∧
    (submitAnswer exS "u1" (.int 1) (.str " Echo ") 99).2 = .ok ⟨true⟩ := by
  refine ⟨?_, c7_normalization.2.2.2⟩
  exact c7_normalization.2.2.1 exS "u1" 3 (.str " Silent ") (.str "silent") 99 (by decide)

/-- C10: `norm` is total over arbitrary request values: falsy values
(missing field, null, empty string, zero, false) coerce to the empty
string, any other value goes through string conversion, so answer
submission never errors because of a malformed answer field (its only
errors are `bad_level` and `locked`); and since every configured expected
answer normalises to a non-empty string, a request with no answer field
gets `correct = false` on every valid unlocked level. -/
theorem c10_norm_total :
    (norm .undef = "" ∧ norm .jsnull = "" ∧ norm (.bool false) = "" ∧
     norm (.num 0) = "" ∧ norm (.str "") = "") ∧
    (∀ v : JsVal, v.falsy = false → norm v = jsToLower (jsTrim v.toString)) ∧
    (∀ l ∈ LEVELS, norm (.str l.answer) ≠ "") ∧
    (∀ (s : Store) (uid : String) (p : JsNum) (a : JsVal) (now : Nat)
       (e : ApiError),
       (submitAnswer s uid p a now).2 = .error e →
       e = .bad_level ∨ e = .locked) ∧
    (∀ (s : Store) (uid : String) (i : Int) (now : Nat),
       1 ≤ i → i ≤ (LEVELS.length : Int) →
       i ≤ (highestSolved (getProgress s uid) : Int) + 1 →
       (submitAnswer s uid (.int i) .undef now).2 = .ok ⟨false⟩) := by
  refine ⟨by decide, ?_, by decide, ?_, ?_⟩
  · intro v h
    unfold norm
    rw [h]
    rfl
  · intro s uid p a now e he
    cases p with
    | nan =>
      simp only [submitAnswer, Prod.snd] at he
      cases he
      exact .inl rfl
    | frac =>
      simp only [submitAnswer, Prod.snd] at he
      cases he
      exact .inl rfl
    | int n =>
      have hN : (LEVELS.length : Int) = 10 := by decide
      by_cases hv : n < 1 ∨ n > (LEVELS.length : Int)
      · rw [submitAnswer_invalid s uid n a now hv] at he
        simp only [Prod.snd] at he
        cases he
        exact .inl rfl
      · push_neg at hv
        by_cases hl : (highestSolved (getProgress s uid) : Int) + 1 < n
        · rw [submitAnswer_locked s uid n a now (by omega) (by omega) hl] at he
          simp only [Prod.snd] at he
          cases he
          exact .inr rfl
        · rw [submitAnswer_valid_unlocked s uid n a now (by omega) (by omega)
            (by omega)] at he
          simp at he
  · intro s uid i now h1 h2 h3
    rw [submitAnswer_valid_unlocked s uid i .undef now h1 h2 h3]
    have hN : (LEVELS.length : Int) = 10 := by decide
    have hall : ∀ k < 10, norm (.str ((LEVELS.getD k dfltLevel).answer)) ≠ "" := by
      decide
    have hne : norm (.str ((LEVELS.getD (i.toNat - 1) dfltLevel).answer)) ≠ "" :=
      hall (i.toNat - 1) (by omega)
    have : (norm .undef == norm (.str ((LEVELS.getD (i.toNat - 1) dfltLevel).answer)))
        = false := by
      rw [show norm .undef = "" from rfl]
      exact beq_eq_false_iff_ne.mpr (fun h => hne h.symm)
    rw [this]

/-- Witness for C10: submitting with a missing answer field on unlocked
level 3 of `exS` returns `correct = false`, and a `bad_level` error names
one of the two permitted error kinds. -/
theorem c10_norm_total_witness :
    (submitAnswer exS "u1" (.int 3) .undef 99).2 = .ok ⟨false⟩ ∧
    (ApiError.bad_level = .bad_level ∨ ApiError.bad_level = .locked) := by
  refine ⟨c10_norm_total.2.2.2.2 exS "u1" 3 99 (by decide) (by decide) (by decide), ?_⟩
  exact c10_norm_total.2.2.2.1 exS "u1" (.int 0) .undef 99 .bad_level (by decide)

/-- The boolean row-selection of `WHERE user_id = ? AND level = ?`. -/
theorem matchRow_iff {p : ProgRow} {uid : String} {i : Int} :
    (p.user_id == uid && ((p.level : Int) == i)) = true ↔
      p.user_id = uid ∧ (p.level : Int) = i := by
  simp

/-- When every row of `(uid, i)` is unsolved, the handler's
`already`-check passes. -/
theorem already_check_passes {s : Store} {uid : String} {i : Int}
    (hunsolved : ∀ p ∈ s.progress, p.user_id = uid → (p.level : Int) = i →
      p.is_solved = 0) :
    (s.progress.find? (fun p => p.user_id == uid && (p.level : Int) == i)).all
      (fun p => p.is_solved == 0) = true := by
  cases hf : s.progress.find? (fun p => p.user_id == uid && (p.level : Int) == i) with
  | none => rfl
  | some p =>
    have hq := List.find?_some hf
    have hm := List.mem_of_find?_eq_some hf
    obtain ⟨hu, hl⟩ := matchRow_iff.mp hq
    simpa [Option.all] using hunsolved p hm hu hl

/-- C5: for every user and unlocked valid level whose records are not yet
solved, submitting a correct answer marks the `(user, n)` record solved
with `solved_at = now` and returns `correct = true`; the user's
`highestSolved` is at least `n` afterwards. -/
theorem c5_correct_submission (s : Store) (uid : String) (i : Int)
    (a : JsVal) (now : Nat)
    (h1 : 1 ≤ i) (h2 : i ≤ (LEVELS.length : Int))
    (h3 : i ≤ (highestSolved (getProgress s uid) : Int) + 1)
    (hcorrect : norm a = norm (.str ((LEVELS.getD (i.toNat - 1) dfltLevel).answer)))
    (hex : ∃ p ∈ s.progress, p.user_id = uid ∧ (p.level : Int) = i)
    (hunsolved : ∀ p ∈ s.progress, p.user_id = uid → (p.level : Int) = i →
      p.is_solved = 0) :
    submitAnswer s uid (.int i) a now = (applySolve s uid i now, .ok ⟨true⟩) ∧
    (∀ p ∈ (submitAnswer s uid (.int i) a now).1.progress,
       p.user_id = uid → (p.level : Int) = i →
       p.is_solved = 1 ∧ p.solved_at = some now) ∧
    i ≤ ((highestSolved (getProgress (submitAnswer s uid (.int i) a now).1 uid)) : Int) := by
  have hbeq : (norm a == norm (.str ((LEVELS.getD (i.toNat - 1) dfltLevel).answer)))
      = true := beq_iff_eq.mpr hcorrect
  have heq : submitAnswer s uid (.int i) a now = (applySolve s uid i now, .ok ⟨true⟩) := by
    rw [submitAnswer_valid_unlocked s uid i a now h1 h2 h3, hbeq,
      if_pos rfl, if_pos (already_check_passes hunsolved)]
  refine ⟨heq, ?_, ?_⟩
  · rw [heq]
    intro p hp hu hl
    simp only [applySolve] at hp
    rcases List.mem_map.mp hp with ⟨p0, hp0, hfp⟩
    by_cases hc : (p0.user_id == uid && ((p0.level : Int) == i)) = true
    · rw [if_pos hc] at hfp
      subst hfp
      exact ⟨rfl, rfl⟩
    · rw [if_neg hc] at hfp
      subst hfp
      exact absurd (matchRow_iff.mpr ⟨hu, hl⟩) hc
  · rw [heq]
    rcases hex with ⟨p0, hp0, hu0, hl0⟩
    have hc : (p0.user_id == uid && ((p0.level : Int) == i)) = true :=
      matchRow_iff.mpr ⟨hu0, hl0⟩
    have hmem : ({ p0 with is_solved := 1, solved_at := some now } : ProgRow) ∈
        (applySolve s uid i now).progress := by
      simp only [applySolve]
      refine List.mem_map.mpr ⟨p0, hp0, ?_⟩
      rw [if_pos hc]
    have hmem2 : ({ p0 with is_solved := 1, solved_at := some now } : ProgRow) ∈
        getProgress (applySolve s uid i now) uid :=
      mem_getProgress.mpr ⟨hmem, hu0⟩
    have hge := highestSolved_ge hmem2 (by simp)
    have hge2 : p0.level ≤ highestSolved (getProgress (applySolve s uid i now) uid) := hge
    show i ≤ ((highestSolved (getProgress (applySolve s uid i now) uid)) : Int)
    omega

/-- Witness for C5: in `exS` (levels 1-2 solved) a correct answer for
level 3 marks it solved at time 99 and is reported correct. -/
theorem c5_correct_submission_witness :
    submitAnswer exS "u1" (.int 3) (.str " Silent ") 99 =
      (applySolve exS "u1" 3 99, .ok ⟨true⟩) ∧
    3 ≤ ((highestSolved (getProgress (submitAnswer exS "u1" (.int 3)
      (.str " Silent ") 99).1 "u1")) : Int) := by
  have h := c5_correct_submission exS "u1" 3 (.str " Silent ") 99
    (by decide) (by decide) (by decide) (by decide)
    ⟨⟨"u1", 3, 0, none⟩, by decide, rfl, rfl⟩
    (by decide)
  exact ⟨h.1, h.2.2⟩

/-- C6: `submitAnswer` changes no progress record except a correct answer
on a not-yet-solved unlocked level: an incorrect answer changes no state
and returns `correct = false`; resubmitting a correct answer for an
already-solved level leaves the store (hence `solved_at`) unchanged while
still returning `correct = true`; and rows of other users or levels are
never touched. -/
theorem c6_frame (s : Store) (uid : String) (i : Int) (a : JsVal) (now : Nat)
    (h1 : 1 ≤ i) (h2 : i ≤ (LEVELS.length : Int))
    (h3 : i ≤ (highestSolved (getProgress s uid) : Int) + 1) :
    (norm a ≠ norm (.str ((LEVELS.getD (i.toNat - 1) dfltLevel).answer)) →
       submitAnswer s uid (.int i) a now = (s, .ok ⟨false⟩)) ∧
    (norm a = norm (.str ((LEVELS.getD (i.toNat - 1) dfltLevel).answer)) →
       ∀ p, s.progress.find? (fun q => q.user_id == uid && (q.level : Int) == i)
           = some p →
         p.is_solved ≠ 0 → submitAnswer s uid (.int i) a now = (s, .ok ⟨true⟩)) ∧
    (∀ q ∈ s.progress, ¬(q.user_id = uid ∧ (q.level : Int) = i) →
       q ∈ (submitAnswer s uid (.int i) a now).1.progress) := by
  refine ⟨?_, ?_, ?_⟩
  · intro hne
    rw [submitAnswer_valid_unlocked s uid i a now h1 h2 h3,
      show (norm a == norm (.str ((LEVELS.getD (i.toNat - 1) dfltLevel).answer)))
          = false from beq_eq_false_iff_ne.mpr hne]
    simp
  · intro hcorr p hfind hsolved
    rw [submitAnswer_valid_unlocked s uid i a now h1 h2 h3,
      show (norm a == norm (.str ((LEVELS.getD (i.toNat - 1) dfltLevel).answer)))
          = true from beq_iff_eq.mpr hcorr, hfind]
    simp only [Option.all_some, if_true]
    rw [if_neg (by simpa using hsolved)]
  · intro q hq hnm
    rw [submitAnswer_valid_unlocked s uid i a now h1 h2 h3]
    simp only [Prod.fst]
    split_ifs with hcorr halready
    · simp only [applySolve]
      refine List.mem_map.mpr ⟨q, hq, ?_⟩
      rw [if_neg (fun hc => hnm (matchRow_iff.mp hc))]
    · exact hq
    · exact hq

/-- Witness for C6: in `exS` an incorrect answer for level 3 and a
repeated correct answer for the already-solved level 1 both leave the
store unchanged. -/
theorem c6_frame_witness :
    submitAnswer exS "u1" (.int 3) (.str "wrong") 99 = (exS, .ok ⟨false⟩) ∧
    submitAnswer exS "u1" (.int 1) (.str "Echo") 99 = (exS, .ok ⟨true⟩) := by
  constructor
  · exact (c6_frame exS "u1" 3 (.str "wrong") 99 (by decide) (by decide)
      (by decide)).1 (by decide)
  · exact (c6_frame exS "u1" 1 (.str "Echo") 99 (by decide) (by decide)
      (by decide)).2.1 (by decide) ⟨"u1", 1, 1, some 10⟩ (by decide) (by decide)

/-- `beginsWith hay needle`: `needle` is an initial run of `hay`. -/
def beginsWith : List Char → List Char → Bool
  | _, [] => true
  | [], _ :: _ => false
  | a :: as, b :: bs => a == b && beginsWith as bs

/-- `hasRun hay needle`: `needle` occurs contiguously inside `hay`. -/
def hasRun : List Char → List Char → Bool
  | [], needle => beginsWith [] needle
  | h :: t, needle => beginsWith (h :: t) needle || hasRun t needle

/-- C9: on success `getLevel` returns exactly the level's prompt together
with the user's solved flag (true when the user's records for the level
are solved, false when unsolved); on a locked level it returns the
`locked` error, which carries no prompt (the error type holds no string);
and no level's expected answer occurs anywhere in its prompt, so the
response never contains the expected answer. -/
theorem c9_get_level (s : Store) (uid : String) (i : Int)
    (h1 : 1 ≤ i) (h2 : i ≤ (LEVELS.length : Int)) :
    (i ≤ (highestSolved (getProgress s uid) : Int) + 1 →
      getLevel s uid (.int i) =
        .ok ⟨i.toNat, (LEVELS.getD (i.toNat - 1) dfltLevel).prompt,
          ((getProgress s uid).find? (fun p => (p.level : Int) == i)).any
            (fun p => p.is_solved == 1)⟩) ∧
    ((highestSolved (getProgress s uid) : Int) + 1 < i →
      getLevel s uid (.int i) = .error .locked) ∧
    ((∀ p ∈ s.progress, p.user_id = uid → (p.level : Int) = i → p.is_solved = 1) →
     (∃ p ∈ s.progress, p.user_id = uid ∧ (p.level : Int) = i) →
      ∃ resp, getLevel s uid (.int i) = .ok resp ∧ resp.is_solved = true) ∧
    ((∀ p ∈ s.progress, p.user_id = uid → (p.level : Int) = i → p.is_solved = 0) →
     i ≤ (highestSolved (getProgress s uid) : Int) + 1 →
      ∃ resp, getLevel s uid (.int i) = .ok resp ∧ resp.is_solved = false) ∧
    (∀ l ∈ LEVELS, hasRun l.prompt.data l.answer.data = false) := by
  refine ⟨?_, ?_, ?_, ?_, by decide⟩
  · intro hunlock
    rw [getLevel_valid s uid i h1 h2, if_neg (by omega)]
  · intro hlock
    rw [getLevel_valid s uid i h1 h2, if_pos hlock]
  · intro hall hex
    rcases hex with ⟨p0, hp0, hu0, hl0⟩
    have hp0g : p0 ∈ getProgress s uid := mem_getProgress.mpr ⟨hp0, hu0⟩
    have hsolved : p0.is_solved = 1 := hall p0 hp0 hu0 hl0
    have hunlock : i ≤ (highestSolved (getProgress s uid) : Int) + 1 := by
      have := highestSolved_ge hp0g (by omega)
      omega
    rw [getLevel_valid s uid i h1 h2, if_neg (by omega)]
    refine ⟨_, rfl, ?_⟩
    have hfind : ∃ p, (getProgress s uid).find?
        (fun p => (p.level : Int) == i) = some p := by
      have : ((getProgress s uid).find? (fun p => (p.level : Int) == i)).isSome := by
        rw [List.find?_isSome]
        exact ⟨p0, hp0g, by simpa using hl0⟩
      exact Option.isSome_iff_exists.mp this
    rcases hfind with ⟨p, hf⟩
    have hpred := List.find?_some hf
    have hpm := List.mem_of_find?_eq_some hf
    rcases mem_getProgress.mp hpm with ⟨hpm2, hpu⟩
    have : p.is_solved = 1 := hall p hpm2 hpu (by simpa using hpred)
    simp [hf, Option.any, this]
  · intro hall hunlock
    rw [getLevel_valid s uid i h1 h2, if_neg (by omega)]
    refine ⟨_, rfl, ?_⟩
    cases hf : (getProgress s uid).find? (fun p => (p.level : Int) == i) with
    | none => simp [hf, Option.any]
    | some p =>
      have hpred := List.find?_some hf
      have hpm := List.mem_of_find?_eq_some hf
      rcases mem_getProgress.mp hpm with ⟨hpm2, hpu⟩
      have : p.is_solved = 0 := hall p hpm2 hpu (by simpa using hpred)
      simp [hf, Option.any, this]

/-- Witness for C9: in `exS` the solved level 2 returns its prompt with
`is_solved = true`, the unsolved level 3 with `is_solved = false`, and
level 4 is rejected with `locked`. -/
theorem c9_get_level_witness :
    (∃ resp, getLevel exS "u1" (.int 2) = .ok resp ∧ resp.is_solved = true) ∧
    (∃ resp, getLevel exS "u1" (.int 3) = .ok resp ∧ resp.is_solved = false) ∧
    getLevel exS "u1" (.int 4) = .error .locked := by
  refine ⟨?_, ?_, ?_⟩
  · exact (c9_get_level exS "u1" 2 (by decide) (by decide)).2.2.1
      (by decide) ⟨⟨"u1", 2, 1, some 11⟩, by decide, rfl, rfl⟩
  · exact (c9_get_level exS "u1" 3 (by decide) (by decide)).2.2.2.1
      (by decide) (by decide)
  · exact (c9_get_level exS "u1" 4 (by decide) (by decide)).2.1 (by decide)

/-- Nonempty length bound rules out the JavaScript falsy check. -/
theorem not_isEmpty_of_length {str : String} (h : 1 ≤ str.length) :
    str.isEmpty = false := by
  by_cases he : str.isEmpty
  · rw [(String.isEmpty_iff str).mp he] at h
    simp at h
  · simpa using he

/-- C2: with valid inputs and a fresh id, registration appends exactly the
user row and the N seeded progress rows (levels 1..N, all unsolved, no
timestamps), so immediately afterwards the user has exactly N progress
rows, all unsolved; a registration with an already-taken username fails
with `username_taken` and leaves the store exactly as it was — no partial
user or progress rows. -/
theorem c2_registration (s : Store) (username password id hash : String)
    (now : Nat) (hl1 : 3 ≤ username.length) (hl2 : username.length ≤ 24)
    (hl3 : 6 ≤ password.length) :
    ((∀ u ∈ s.users, u.username ≠ username) →
     (∀ u ∈ s.users, u.id ≠ id) →
     (∀ p ∈ s.progress, p.user_id ≠ id) →
     register s username password id hash now =
       ({ users := s.users ++ [⟨id, username, hash, now⟩],
          progress := s.progress ++ (List.range LEVELS.length).map
            (fun k => ⟨id, k + 1, 0, none⟩) },
        .ok ⟨id, username⟩) ∧
     ((register s username password id hash now).1.progress.filter
         (fun p => p.user_id == id)).map
         (fun p => (p.level, p.is_solved, p.solved_at))
       = (List.range LEVELS.length).map
           (fun k => (k + 1, 0, (none : Option Nat)))) ∧
    ((∃ u ∈ s.users, u.username = username) →
      register s username password id hash now = (s, .error .username_taken)) := by
  have hne1 : username.isEmpty = false := not_isEmpty_of_length (by omega)
  have hne2 : password.isEmpty = false := not_isEmpty_of_length (by omega)
  constructor
  · intro hfu hfi hfp
    have hany1 : s.users.any (fun u => u.username == username) = false := by
      rw [Bool.eq_false_iff]
      intro hc
      rcases List.any_eq_true.mp hc with ⟨u, hu, hb⟩
      exact hfu u hu (by simpa using hb)
    have hany2 : s.users.any (fun u => u.id == id) = false := by
      rw [Bool.eq_false_iff]
      intro hc
      rcases List.any_eq_true.mp hc with ⟨u, hu, hb⟩
      exact hfi u hu (by simpa using hb)
    have hany3 : s.progress.any
        (fun p => p.user_id == id && 1 ≤ p.level && p.level ≤ LEVELS.length) = false := by
      rw [Bool.eq_false_iff]
      intro hc
      rcases List.any_eq_true.mp hc with ⟨p, hp, hb⟩
      simp only [Bool.and_eq_true, beq_iff_eq] at hb
      exact hfp p hp hb.1.1
    have hreg : register s username password id hash now =
        ({ users := s.users ++ [⟨id, username, hash, now⟩],
           progress := s.progress ++ (List.range LEVELS.length).map
             (fun k => ⟨id, k + 1, 0, none⟩) },
         .ok ⟨id, username⟩) := by
      unfold register
      rw [if_neg (by simp [hne1, hne2]), if_neg (by omega), if_neg (by omega),
        if_neg (by simp [hany1]), if_neg (by simp [hany2]),
        if_neg (by simp [hany3])]
    refine ⟨hreg, ?_⟩
    rw [hreg]
    simp only [List.filter_append]
    have hold : s.progress.filter (fun p => p.user_id == id) = [] := by
      rw [List.filter_eq_nil_iff]
      intro p hp
      simpa using hfp p hp
    have hnew : ((List.range LEVELS.length).map
        (fun k => (⟨id, k + 1, 0, none⟩ : ProgRow))).filter
          (fun p => p.user_id == id)
        = (List.range LEVELS.length).map (fun k => (⟨id, k + 1, 0, none⟩ : ProgRow)) := by
      rw [List.filter_eq_self]
      intro p hp
      rcases List.mem_map.mp hp with ⟨k, _, rfl⟩
      simp
    rw [hold, hnew, List.nil_append, List.map_map]
    rfl
  · intro ⟨u, hu, huname⟩
    unfold register
    rw [if_neg (by simp [hne1, hne2]), if_neg (by omega), if_neg (by omega),
      if_pos (by simp only [List.any_eq_true]; exact ⟨u, hu, by simpa using huname⟩)]

/-- Witness for C2: registering "carol" into the empty store seeds the
ten unsolved rows; re-registering "alice" against `exS` fails with
`username_taken` and leaves `exS` untouched. -/
theorem c2_registration_witness :
    ((register s0 "carol" "secret1" "u9" "h" 5).1.progress.filter
        (fun p => p.user_id == "u9")).map
        (fun p => (p.level, p.is_solved, p.solved_at))
      = (List.range LEVELS.length).map
          (fun k => (k + 1, 0, (none : Option Nat))) ∧
    register exS "alice" "secret1" "u9" "h" 5 = (exS, .error .username_taken) := by
  constructor
  · exact ((c2_registration s0 "carol" "secret1" "u9" "h" 5 (by decide) (by decide)
      (by decide)).1 (by simp [s0]) (by simp [s0]) (by simp [s0])).2
  · exact (c2_registration exS "alice" "secret1" "u9" "h" 5 (by decide) (by decide)
      (by decide)).2 ⟨⟨"u1", "alice", "h", 0⟩, by decide, rfl⟩

/-- `preserves s t`: every progress row of `s` survives into `t` with its
user, its level, and its solvedness (solved rows never revert). -/
def preserves (s t : Store) : Prop :=
  ∀ p ∈ s.progress, ∃ q ∈ t.progress,
    q.user_id = p.user_id ∧ q.level = p.level ∧ (p.is_solved ≠ 0 → q.is_solved ≠ 0)

theorem preserves_refl (s : Store) : preserves s s :=
  fun p hp => ⟨p, hp, rfl, rfl, id⟩

theorem preserves_trans {s t u : Store} (h1 : preserves s t)
    (h2 : preserves t u) : preserves s u := by
  intro p hp
  rcases h1 p hp with ⟨q, hq, hqu, hql, hqs⟩
  rcases h2 q hq with ⟨r, hr, hru, hrl, hrs⟩
  exact ⟨r, hr, hru.trans hqu, hrl.trans hql, fun h => hrs (hqs h)⟩

theorem submitAnswer_preserves (s : Store) (uid : String) (p : JsNum)
    (a : JsVal) (now : Nat) : preserves s (submitAnswer s uid p a now).1 := by
  cases p with
  | nan => exact preserves_refl s
  | frac => exact preserves_refl s
  | int n =>
    have hN : (LEVELS.length : Int) = 10 := by decide
    by_cases hv : n < 1 ∨ n > (LEVELS.length : Int)
    · rw [submitAnswer_invalid s uid n a now hv]
      exact preserves_refl s
    · push_neg at hv
      by_cases hl : (highestSolved (getProgress s uid) : Int) + 1 < n
      · rw [submitAnswer_locked s uid n a now (by omega) (by omega) hl]
        exact preserves_refl s
      · rw [submitAnswer_valid_unlocked s uid n a now (by omega) (by omega) (by omega)]
        simp only [Prod.fst]
        split_ifs
        · intro q hq
          by_cases hc : (q.user_id == uid && ((q.level : Int) == n)) = true
          · refine ⟨{ q with is_solved := 1, solved_at := some now },
              List.mem_map.mpr ⟨q, hq, by rw [if_pos hc]⟩, rfl, rfl, ?_⟩
            intro _
            simp
          · exact ⟨q, List.mem_map.mpr ⟨q, hq, by rw [if_neg hc]⟩, rfl, rfl, id⟩
        · exact preserves_refl s
        · exact preserves_refl s

theorem register_preserves (s : Store) (u pw id h : String) (now : Nat) :
    preserves s (register s u pw id h now).1 := by
  unfold register
  split_ifs <;>
    first
      | exact preserves_refl s
      | exact fun p hp => ⟨p, hp, rfl, rfl, fun hh => hh⟩
      | exact fun p hp => ⟨p, List.mem_append_left _ hp, rfl, rfl, fun hh => hh⟩

theorem applyOp_preserves (s : Store) (op : Op) : preserves s (applyOp s op) := by
  cases op with
  | getLevelOp uid p => exact preserves_refl s
  | leaderboardOp => exact preserves_refl s
  | submitAnswerOp uid p a now => exact submitAnswer_preserves s uid p a now
  | registerOp u pw id h now => exact register_preserves s u pw id h now

theorem runOps_preserves (s : Store) (ops : List Op) :
    preserves s (runOps s ops) := by
  induction ops generalizing s with
  | nil => exact preserves_refl s
  | cons op ops ih =>
    exact preserves_trans (applyOp_preserves s op) (ih (applyOp s op))

theorem highestSolved_mono {s t : Store} (h : preserves s t) (uid : String) :
    highestSolved (getProgress s uid) ≤ highestSolved (getProgress t uid) := by
  apply highestSolved_le
  intro p hp hps
  rcases mem_getProgress.mp hp with ⟨hpm, hpu⟩
  rcases h p hpm with ⟨q, hq, hqu, hql, hqs⟩
  have hqg : q ∈ getProgress t uid := mem_getProgress.mpr ⟨hq, hqu.trans hpu⟩
  rw [← hql]
  exact highestSolved_ge hqg (hqs hps)

/-- C8: solve state is one-way: across any sequence of requests no
progress record reverts from solved to unsolved and `highestSolved` never
decreases for any user; the read-only operations (`getLevel`,
`leaderboard`) leave the store untouched, and no operation other than
answer submission ever produces a solved row that was not already
present (registration only seeds unsolved rows). -/
theorem c8_one_way (s : Store) (ops : List Op) (uid : String) :
    highestSolved (getProgress s uid) ≤
      highestSolved (getProgress (runOps s ops) uid) ∧
    (∀ p ∈ s.progress, p.is_solved ≠ 0 →
       ∃ q ∈ (runOps s ops).progress,
         q.user_id = p.user_id ∧ q.level = p.level ∧ q.is_solved ≠ 0) ∧
    (∀ (t : Store) (uid2 : String) (p2 : JsNum),
       applyOp t (.getLevelOp uid2 p2) = t ∧ applyOp t .leaderboardOp = t) ∧
    (∀ (t : Store) (op : Op),
       (∀ uid2 p2 a2 now2, op ≠ .submitAnswerOp uid2 p2 a2 now2) →
       ∀ q ∈ (applyOp t op).progress, q ∈ t.progress ∨ q.is_solved = 0) := by
  refine ⟨highestSolved_mono (runOps_preserves s ops) uid, ?_, ?_, ?_⟩
  · intro p hp hps
    rcases runOps_preserves s ops p hp with ⟨q, hq, hqu, hql, hqs⟩
    exact ⟨q, hq, hqu, hql, hqs hps⟩
  · exact fun t uid2 p2 => ⟨rfl, rfl⟩
  · intro t op hne q hq
    cases op with
    | getLevelOp uid2 p2 => exact .inl hq
    | leaderboardOp => exact .inl hq
    | submitAnswerOp uid2 p2 a2 now2 => exact absurd rfl (hne uid2 p2 a2 now2)
    | registerOp u pw id h now =>
      simp only [applyOp] at hq
      revert hq
      unfold register
      split_ifs <;> intro hq
      · exact .inl hq
      · exact .inl hq
      · exact .inl hq
      · exact .inl hq
      · exact .inl hq
      · exact .inl hq
      · rcases List.mem_append.mp hq with hql | hqr
        · exact .inl hql
        · rcases List.mem_map.mp hqr with ⟨k, _, rfl⟩
          exact .inr rfl

/-- Witness for C8: replaying a mixed request sequence against `exS`
(a read, a correct solve of level 3, a wrong answer, a leaderboard read)
never lowers `highestSolved` for user "u1", and the wrong-answer step
produces no new solved row. -/
theorem c8_one_way_witness :
    highestSolved (getProgress exS "u1") ≤
      highestSolved (getProgress (runOps exS
        [.getLevelOp "u1" (.int 3),
         .submitAnswerOp "u1" (.int 3) (.str "silent") 99,
         .submitAnswerOp "u1" (.int 4) (.str "wrong") 100,
         .leaderboardOp]) "u1") ∧
    (∀ q ∈ (applyOp exS (.getLevelOp "u1" (.int 3))).progress,
       q ∈ exS.progress ∨ q.is_solved = 0) := by
  constructor
  · exact (c8_one_way exS
      [.getLevelOp "u1" (.int 3),
       .submitAnswerOp "u1" (.int 3) (.str "silent") 99,
       .submitAnswerOp "u1" (.int 4) (.str "wrong") 100,
       .leaderboardOp] "u1").1
  · exact (c8_one_way exS [] "u1").2.2.2 exS (.getLevelOp "u1" (.int 3))
      (fun _ _ _ _ h => by cases h)

theorem lexLe_total : ∀ as bs : List Char, lexLe as bs = true ∨ lexLe bs as = true
  | [], _ => .inl rfl
  | _ :: _, [] => .inr rfl
  | a :: as, b :: bs => by
    simp only [lexLe, Bool.or_eq_true, Bool.and_eq_true, Nat.blt_eq, beq_iff_eq]
    rcases Nat.lt_trichotomy a.toNat b.toNat with h | h | h
    · exact .inl (.inl h)
    · rcases lexLe_total as bs with ih | ih
      · exact .inl (.inr ⟨h, ih⟩)
      · exact .inr (.inr ⟨h.symm, ih⟩)
    · exact .inr (.inl h)

theorem lexLe_trans : ∀ {as bs cs : List Char}, lexLe as bs = true →
    lexLe bs cs = true → lexLe as cs = true
  | [], _, _, _, _ => rfl
  | _ :: _, [], _, h1, _ => by cases h1
  | _ :: _, _ :: _, [], _, h2 => by cases h2
  | a :: as, b :: bs, c :: cs, h1, h2 => by
    simp only [lexLe, Bool.or_eq_true, Bool.and_eq_true, Nat.blt_eq,
      beq_iff_eq] at h1 h2 ⊢
    rcases h1 with h1 | ⟨h1e, h1r⟩
    · rcases h2 with h2 | ⟨h2e, _⟩
      · exact .inl (by omega)
      · exact .inl (by omega)
    · rcases h2 with h2 | ⟨h2e, h2r⟩
      · exact .inl (by omega)
      · exact .inr ⟨by omega, lexLe_trans h1r h2r⟩

theorem strLe_total (a b : String) : strLe a b ∨ strLe b a :=
  lexLe_total a.data b.data

theorem strLe_trans {a b c : String} (h1 : strLe a b) (h2 : strLe b c) :
    strLe a c :=
  lexLe_trans h1 h2

theorem tsLt_trans {a b c : Option Nat} (h1 : tsLt a b) (h2 : tsLt b c) :
    tsLt a c := by
  cases a <;> cases b <;> cases c <;> simp_all [tsLt]
  omega

theorem tsLt_total_cases (a b : Option Nat) : tsLt a b ∨ a = b ∨ tsLt b a := by
  cases a <;> cases b <;> simp [tsLt]
  omega

instance : IsTotal BoardRow boardLe := by
  constructor
  intro a b
  unfold boardLe
  rcases Nat.lt_trichotomy a.solved_levels b.solved_levels with h | h | h
  · exact .inr (.inl h)
  · rcases tsLt_total_cases a.tiebreak_ts b.tiebreak_ts with ht | ht | ht
    · exact .inl (.inr ⟨h, .inl ht⟩)
    · rcases strLe_total a.username b.username with hu | hu
      · exact .inl (.inr ⟨h, .inr ⟨ht, hu⟩⟩)
      · exact .inr (.inr ⟨h.symm, .inr ⟨ht.symm, hu⟩⟩)
    · exact .inr (.inr ⟨h.symm, .inl ht⟩)
  · exact .inl (.inl h)

instance : IsTrans BoardRow boardLe := by
  constructor
  intro a b c hab hbc
  unfold boardLe at *
  rcases hab with h1 | ⟨h1, h1x⟩
  · rcases hbc with h2 | ⟨h2, _⟩
    · exact .inl (h2.trans h1)
    · exact .inl (h2 ▸ h1)
  · rcases hbc with h2 | ⟨h2, h2x⟩
    · exact .inl (h1 ▸ h2)
    · refine .inr ⟨h1.trans h2, ?_⟩
      rcases h1x with ht1 | ⟨ht1, hu1⟩
      · rcases h2x with ht2 | ⟨ht2, _⟩
        · exact .inl (tsLt_trans ht1 ht2)
        · exact .inl (ht2 ▸ ht1)
      · rcases h2x with ht2 | ⟨ht2, hu2⟩
        · exact .inl (ht1 ▸ ht2)
        · exact .inr ⟨ht1.trans ht2, strLe_trans hu1 hu2⟩

theorem foldl_min_const {l : List Nat} {t : Nat} (hall : ∀ x ∈ l, x = t) :
    l.foldl Nat.min t = t := by
  induction l with
  | nil => rfl
  | cons y l ih =>
    have hmin : Nat.min t t = t := Nat.min_self t
    rw [List.foldl_cons, hall y (List.mem_cons_self y l), hmin]
    exact ih (fun x hx => hall x (List.mem_cons_of_mem _ hx))

theorem min?_of_const {l : List Nat} {t : Nat} (hne : t ∈ l)
    (hall : ∀ x ∈ l, x = t) : l.min? = some t := by
  cases l with
  | nil => cases hne
  | cons x xs =>
    have hx : x = t := hall x (List.mem_cons_self x xs)
    subst hx
    show some (xs.foldl Nat.min x) = some x
    rw [foldl_min_const (fun y hy => hall y (List.mem_cons_of_mem _ hy))]

/-- C4: the leaderboard orders its rows by the total order
`(solved_levels DESC, tiebreak_ts ASC with NULLs last, username ASC)`
over exactly the per-user aggregate rows; the tie-break timestamp is NULL
when the user has no solves (all levels being ≥ 1) and otherwise is the
`solved_at` of the user's highest solved row; and on the spec's concrete
scenario `exB` (A = "alice" solved 1-3 last at 10, B = "bob" solved 1-3
last at 5, C = "zara" and D = "amy" without solves) the returned order is
B, A, D, C. -/
theorem c4_leaderboard_order :
    (∀ s : Store, List.Sorted boardLe (leaderboard s) ∧
       ((boardRows s).insertionSort boardLe).Perm (boardRows s)) ∧
    (∀ (s : Store) (uid : String), (∀ q ∈ s.progress, 1 ≤ q.level) →
       sqlHighestSolved (rowsOf s uid) = 0 → tiebreakTs (rowsOf s uid) = none) ∧
    (∀ (s : Store) (uid : String) (p : ProgRow) (t : Nat),
       p ∈ s.progress → p.user_id = uid →
       p.level = sqlHighestSolved (rowsOf s uid) →
       p.is_solved = 1 → p.solved_at = some t →
       (∀ q ∈ s.progress, q.user_id = uid → q.level = p.level → q = p) →
       tiebreakTs (rowsOf s uid) = some t) ∧
    (leaderboard exB).map (fun r => r.username) = ["bob", "alice", "amy", "zara"] := by
  refine ⟨?_, ?_, ?_, by decide⟩
  · intro s
    exact ⟨List.Pairwise.sublist (List.take_sublist 100 _)
        (List.sorted_insertionSort boardLe (boardRows s)),
      List.perm_insertionSort boardLe (boardRows s)⟩
  · intro s uid hlev hzero
    unfold tiebreakTs
    rw [hzero]
    have hemp : (rowsOf s uid).filter
        (fun p => p.is_solved == 1 && p.level == 0) = [] := by
      rw [List.filter_eq_nil_iff]
      intro p hp
      have hp2 : p ∈ s.progress := List.mem_of_mem_filter hp
      have := hlev p hp2
      simp only [Bool.and_eq_true, beq_iff_eq]
      omega
    rw [hemp]
    rfl
  · intro s uid p t hp hpu hpl hps hpt huniq
    unfold tiebreakTs
    have hpr : p ∈ rowsOf s uid := by
      unfold rowsOf
      exact List.mem_filter.mpr ⟨hp, by simpa using hpu⟩
    have hpf : p ∈ (rowsOf s uid).filter
        (fun q => q.is_solved == 1 && q.level == sqlHighestSolved (rowsOf s uid)) := by
      refine List.mem_filter.mpr ⟨hpr, ?_⟩
      simp only [Bool.and_eq_true, beq_iff_eq]
      exact ⟨hps, hpl ▸ rfl⟩
    apply min?_of_const
    · exact List.mem_filterMap.mpr ⟨p, hpf, hpt⟩
    · intro x hx
      rcases List.mem_filterMap.mp hx with ⟨q, hqf, hqt⟩
      rcases List.mem_filter.mp hqf with ⟨hqr, hqc⟩
      rcases List.mem_filter.mp hqr with ⟨hqm, hqu⟩
      simp only [Bool.and_eq_true, beq_iff_eq] at hqc hqu
      have : q = p := huniq q hqm hqu (by omega)
      subst this
      rw [hpt] at hqt
      exact (Option.some_injective _ hqt).symm

/-- Witness for C4: the ordering theorem instantiated on `exB`, plus the
tie-break-NULL clause for the solve-less user "c" ("zara") of `exB` and
the tie-break value for "b" ("bob", highest solve at t = 5). -/
theorem c4_leaderboard_order_witness :
    List.Sorted boardLe (leaderboard exB) ∧
    tiebreakTs (rowsOf exB "c") = none ∧
    tiebreakTs (rowsOf exB "b") = some 5 := by
  refine ⟨(c4_leaderboard_order.1 exB).1, ?_, ?_⟩
  · exact c4_leaderboard_order.2.1 exB "c" (by decide) (by decide)
  · exact c4_leaderboard_order.2.2.1 exB "b" ⟨"b", 3, 1, some 5⟩ 5
      (by decide) rfl (by decide) rfl rfl (by decide)

/-- C3 counterexample: the leaderboard response does not consist of
username and solved count alone — the third selected column
`tiebreak_ts` is serialised too, and on the store `exT` it equals the raw
stored solve timestamp 42.  User ids are indeed absent, but raw solve
timestamps are exposed. -/
theorem c3_counterexample :
    leaderboard exT = [⟨"alice", 1, some 42⟩] ∧
    exT.progress.map (fun p => p.solved_at) = [some 42] := by
  decide

/-- C3 (amended): the leaderboard returns at most 100 entries, each
consisting of a username, the solved-level count, and the tie-break
timestamp of that user — computed from the store's users without exposing
user ids. -/
theorem c3_leaderboard_shape (s : Store) :
    (leaderboard s).length ≤ 100 ∧
    (∀ r ∈ leaderboard s, ∃ u ∈ s.users,
       r = ⟨u.username, sqlHighestSolved (rowsOf s u.id),
            tiebreakTs (rowsOf s u.id)⟩) := by
  constructor
  · unfold leaderboard
    exact List.length_take_le 100 _
  · intro r hr
    have hr2 : r ∈ (boardRows s).insertionSort boardLe :=
      List.mem_of_mem_take hr
    have hr3 : r ∈ boardRows s := (List.mem_insertionSort boardLe).mp hr2
    rcases List.mem_map.mp hr3 with ⟨u, hu, rfl⟩
    exact ⟨u, hu, rfl⟩

/-- Witness for C3: the shape theorem instantiated on `exB`; its first
row is the aggregate of user "b". -/
theorem c3_leaderboard_shape_witness :
    (leaderboard exB).length ≤ 100 ∧
    (∃ u ∈ exB.users, (⟨"bob", 3, some 5⟩ : BoardRow) =
       ⟨u.username, sqlHighestSolved (rowsOf exB u.id),
        tiebreakTs (rowsOf exB u.id)⟩) := by
  exact ⟨(c3_leaderboard_shape exB).1,
    (c3_leaderboard_shape exB).2 ⟨"bob", 3, some 5⟩ (by decide)⟩

end CrypticHunt
